import Mathlib

/-!
Verification of the reporting core of a small sales-request tracker
(`models.py`, `report_exporters.py`, `app.py`).

Calendar dates are embedded as proleptic-Gregorian day ordinals
(`toOrdinal 1 1 1 = 1`, a Monday), exactly the ordinal used by the
`datetime.date` objects manipulated by the source.  SQL rows are embedded
as explicit record lists; the SQLite value stored in the dynamically typed
`target_days` column is embedded as `TVal` (NULL, INTEGER or TEXT).
-/

namespace GbbCrm

/-- Gregorian leap-year test, as implemented by the `datetime` module the
source delegates date arithmetic to. -/
def isLeap (y : Nat) : Bool :=
  (y % 4 == 0 && y % 100 != 0) || y % 400 == 0

/-- Number of days of month `m` of year `y`. -/
def daysInMonth (y m : Nat) : Nat :=
  if m = 2 then (if isLeap y then 29 else 28)
  else if m = 4 ∨ m = 6 ∨ m = 9 ∨ m = 11 then 30
  else 31

/-- Days of year `y` that precede the first day of month `m`. -/
def daysBeforeMonth (y m : Nat) : Nat :=
  (List.range (m - 1)).foldl (fun a i => a + daysInMonth y (i + 1)) 0

/-- Days that precede January 1 of year `y` in the proleptic Gregorian
calendar. -/
def daysBeforeYear (y : Nat) : Nat :=
  365 * (y - 1) + (y - 1) / 4 - (y - 1) / 100 + (y - 1) / 400

/-- The day ordinal of the calendar date `y-m-d`: the value
`date(y, m, d).toordinal()` of the `date` objects built by
`datetime.strptime(s, "%Y-%m-%d")` in `calculate_working_days`. -/
def toOrdinal (y m d : Nat) : Nat :=
  daysBeforeYear y + daysBeforeMonth y m + d

/-- Weekday of a day ordinal, Monday = 0 .. Sunday = 6: the Python
`date.weekday()` (ordinal 1 is a Monday). -/
def weekday (o : Nat) : Nat := (o + 6) % 7

/-- Fuel-driven counting loop of `calculate_working_days`
(models.py lines 98-105): starting at day `c`, count the Monday-Friday
days among the next `n` consecutive days. -/
def wdGo : Nat → Nat → Nat
  | 0, _ => 0
  | n + 1, c => (if weekday c < 5 then 1 else 0) + wdGo n (c + 1)

/-- The `while current_date <= end` loop: count Monday-Friday days among
the days `c, c+1, ..., e` (none when `e < c`). -/
def weekdayCount (c e : Nat) : Nat := wdGo (e + 1 - c) c

/-- models.py lines 85-108, `calculate_working_days`, on day ordinals of
already-parsed dates: 1 when the two dates coincide, otherwise one plus
the number of Monday-Friday days strictly after `s` up to `e` inclusive.
When `e < s` the loop body is never entered and the function returns 1. -/
def calculate_working_days (s e : Nat) : Nat :=
  if s = e then 1 else weekdayCount (s + 1) e + 1

theorem wdGo_eq_filter_length (n : Nat) : ∀ c : Nat,
    wdGo n c = ((List.range' c n).filter (fun d => weekday d < 5)).length := by
  induction n with
  | zero => intro c; rfl
  | succ n ih =>
    intro c
    rw [List.range'_succ, List.filter_cons, wdGo]
    by_cases h : weekday c < 5
    · simp [h, ih (c + 1)]; omega
    · simp [h, ih (c + 1)]

/-- Claim C1: for start ≤ end (written `end = s + k`),
`calculate_working_days` returns 1 when the dates coincide and otherwise
1 plus the number of Monday-Friday days in the half-open interval
`(start, end]`; the result is always at least 1, and on the concrete pair
2024-01-01 (a Monday) to 2024-01-07 (the Sunday after) it returns 5. -/
theorem calculate_working_days_spec (s k : Nat) :
    calculate_working_days s s = 1
    ∧ calculate_working_days s (s + k) =
        1 + ((List.range' (s + 1) k).filter (fun d => weekday d < 5)).length
    ∧ 1 ≤ calculate_working_days s (s + k)
    ∧ calculate_working_days (toOrdinal 2024 1 1) (toOrdinal 2024 1 7) = 5 := by
  have h1 : calculate_working_days s s = 1 := by simp [calculate_working_days]
  have h2 : calculate_working_days s (s + k) =
      1 + ((List.range' (s + 1) k).filter (fun d => weekday d < 5)).length := by
    cases k with
    | zero => simp [calculate_working_days]
    | succ k =>
      have hne : s ≠ s + (k + 1) := by omega
      have hcnt : s + (k + 1) + 1 - (s + 1) = k + 1 := by omega
      rw [calculate_working_days, if_neg hne, weekdayCount, hcnt,
        wdGo_eq_filter_length]
      omega
  refine ⟨h1, h2, ?_, by decide⟩
  rw [h2]; omega

/-- Claim C9 counterexample: called with the end date strictly before the
start date (2024-01-07 then 2024-01-01), `calculate_working_days` does not
fail: it returns the working-day count 1. -/
theorem calculate_working_days_reversed_counterexample :
    calculate_working_days (toOrdinal 2024 1 7) (toOrdinal 2024 1 1) = 1 := by
  decide

/-- Claim C9 amended: for every pair of dates with the end date strictly
earlier than the start date (start written `e + k + 1`), the day-walk loop
of `calculate_working_days` is never entered and the function returns 1;
no error of any kind is raised. -/
theorem calculate_working_days_reversed_amended (e k : Nat) :
    calculate_working_days (e + k + 1) e = 1 := by
  have hne : e + k + 1 ≠ e := by omega
  have hz : e + 1 - (e + k + 1 + 1) = 0 := by omega
  rw [calculate_working_days, if_neg hne, weekdayCount, hz]
  rfl

/-- models.py lines 25-44, the `service_slugs` dictionary of
`get_service_slug`: the fixed 18-entry service-type table. -/
def serviceSlugs : List (String × String) :=
  [("Internet Service", "IS"),
   ("Lease line", "LL"),
   ("Dark Fibre", "DF"),
   ("Network Monitoring", "NM"),
   ("Others - Connectivity (Renewal, Upgrade, IT Device, IP Addresses, Consultation, Support etc)", "OC"),
   ("Collocation", "CS"),
   ("Cross Connection", "CC"),
   ("Collocation & Cross-connect Renewal", "CR"),
   ("ECS", "EC"),
   ("Disaster Recovery", "DR"),
   ("Backup Service", "BS"),
   ("Object Storage", "OS"),
   ("Email Service", "ES"),
   ("Others - Cloud (Renewal, Upgrade of Cloud Resources, IP Address, Licenses etc)", "OR"),
   ("Document Management System - EDMS", "DM"),
   ("Capacity Building - Training", "CB"),
   ("Network Security", "NS"),
   ("Security Renewal", "SR")]

/-- models.py lines 23-45, `get_service_slug`:
`service_slugs.get(service_type, "OT")`, the table lookup defaulting to
the fallback slug `OT`. -/
def get_service_slug (service_type : String) : String :=
  match serviceSlugs.find? (fun kv => kv.1 == service_type) with
  | some kv => kv.2
  | none => "OT"

/-- The 18 service types of the slug table (`Request.SERVICE_TYPES`). -/
def knownServiceTypes : List String :=
  ["Internet Service", "Lease line", "Dark Fibre", "Network Monitoring",
   "Others - Connectivity (Renewal, Upgrade, IT Device, IP Addresses, Consultation, Support etc)",
   "Collocation", "Cross Connection", "Collocation & Cross-connect Renewal",
   "ECS", "Disaster Recovery", "Backup Service", "Object Storage",
   "Email Service",
   "Others - Cloud (Renewal, Upgrade of Cloud Resources, IP Address, Licenses etc)",
   "Document Management System - EDMS", "Capacity Building - Training",
   "Network Security", "Security Renewal"]

/-- Decimal digit character: `0 ↦ '0', ..., 9 ↦ '9'`. -/
def dch (d : Nat) : Char := Char.ofNat (48 + d)

/-- Python `f"{n:02d}"`: zero-pad to two digits (used by `strftime("%m%y")`
for the month and the two-digit year). -/
def pad2 (n : Nat) : String :=
  if n ≤ 99 then String.mk [dch (n / 10), dch (n % 10)] else toString n

/-- Python `f"{n:03d}"` on a natural number: zero-pad to three digits. -/
def pad3 (n : Nat) : String :=
  if n ≤ 999 then String.mk [dch (n / 100), dch (n / 10 % 10), dch (n % 10)]
  else toString n

/-- Python `f"{n:03d}"` on a possibly negative `int`: the minimum field
width of 3 includes the sign. -/
def pad3i (n : Int) : String :=
  if n < 0 then "-" ++ pad2 n.natAbs else pad3 n.toNat

/-- ASCII lower-casing of one character, the folding SQLite applies to
both sides of a `LIKE` comparison. -/
def lowerChar (c : Char) : Char :=
  if 'A' ≤ c ∧ c ≤ 'Z' then Char.ofNat (c.toNat + 32) else c

/-- Every suffix of a character list, longest first (the candidate
remainders a `%` wildcard may leave to the rest of the pattern). -/
def allSuffixes : List Char → List (List Char)
  | [] => [[]]
  | c :: cs => (c :: cs) :: allSuffixes cs

/-- SQLite `LIKE` matching on character lists: `%` matches any run of
characters, `_` matches exactly one character, any other pattern
character matches itself up to ASCII case. -/
def likeM : List Char → List Char → Bool
  | [], s => s.isEmpty
  | p :: ps, s =>
    if p = '%' then (allSuffixes s).any (fun t => likeM ps t)
    else match s with
      | [] => false
      | c :: cs =>
        if p = '_' then likeM ps cs
        else (lowerChar p == lowerChar c) && likeM ps cs

/-- The SQL predicate `custom_id LIKE pattern` of `generate_custom_id`. -/
def sqlLike (pattern s : String) : Bool := likeM pattern.data s.data

/-- Byte-wise comparison of two character lists, the BINARY collation
SQLite sorts TEXT by (all ids involved are ASCII). -/
def strLtData : List Char → List Char → Bool
  | [], [] => false
  | [], _ :: _ => true
  | _ :: _, [] => false
  | a :: as, b :: bs =>
    if a.toNat < b.toNat then true
    else if b.toNat < a.toNat then false
    else strLtData as bs

/-- Lexicographic (BINARY-collation) strict order on strings. -/
def strLt (s t : String) : Bool := strLtData s.data t.data

/-- The row produced by `ORDER BY custom_id DESC LIMIT 1`: the
lexicographically greatest element of the matching list, `none` when the
list is empty. -/
def maxString? (l : List String) : Option String :=
  l.foldl (fun acc s => match acc with
    | none => some s
    | some t => if strLt t s then some s else some t) none

/-- Python `s.split("_")[-1]`: the characters after the last underscore
(the whole string when it has none). -/
def lastCompData (l : List Char) : List Char :=
  l.foldl (fun acc c => if c = '_' then [] else acc ++ [c]) []

/-- The final underscore-separated component of a string. -/
def lastComp (s : String) : String := String.mk (lastCompData s.data)

/-- Digit-string value accumulator of `int(...)`. -/
def parseDigits : List Char → Nat → Option Nat
  | [], acc => some acc
  | c :: cs, acc =>
    if 48 ≤ c.toNat ∧ c.toNat ≤ 57 then parseDigits cs (10 * acc + (c.toNat - 48))
    else none

/-- Python `int(s)` on a character list: an optional sign followed by one
or more decimal digits; `none` models the `ValueError` the source
catches. -/
def parseIntData : List Char → Option Int
  | [] => none
  | c :: cs =>
    if c = '-' then
      match cs with
      | [] => none
      | _ => (parseDigits cs 0).map (fun n => -(n : Int))
    else if c = '+' then
      match cs with
      | [] => none
      | _ => (parseDigits cs 0).map (fun n => (n : Int))
    else (parseDigits (c :: cs) 0).map (fun n => (n : Int))

/-- Python `int(s)` on the strings reachable here. -/
def parseIntOpt (s : String) : Option Int := parseIntData s.data

/-- The constant id prefix `GBB_SDA_{mmyy}_{slug}_` built by
`generate_custom_id` for a service type and a month `mon` of year `yr`
(`strftime("%m%y")`). -/
def idPfx (service_type : String) (mon yr : Nat) : String :=
  "GBB_SDA_" ++ (pad2 mon ++ pad2 (yr % 100)) ++ "_"
    ++ get_service_slug service_type ++ "_"

/-- models.py lines 47-83, `generate_custom_id`: look up the
lexicographically greatest stored custom id `LIKE prefix%`, parse its
final underscore-separated component as an integer and add one (falling
back to 1 when the bucket is empty or the component does not parse), and
zero-pad to three digits.  The list `ids` is the `custom_id` column of
the store. -/
def generate_custom_id (ids : List String) (service_type : String)
    (mon yr : Nat) : String :=
  match maxString? (ids.filter
      (fun s => sqlLike (idPfx service_type mon yr ++ "%") s)) with
  | none => idPfx service_type mon yr ++ pad3 1
  | some last_id =>
    match parseIntOpt (lastComp last_id) with
    | some n => idPfx service_type mon yr ++ pad3i (n + 1)
    | none => idPfx service_type mon yr ++ pad3 1

/-- `n` successive creations in one month for one service type: each step
generates an id and inserts it into the store (models.py lines 190-230
call `generate_custom_id` and then `INSERT` the row). -/
def gensAux (ids : List String) (service_type : String) (mon yr : Nat) :
    Nat → List String
  | 0 => []
  | n + 1 =>
    generate_custom_id ids service_type mon yr ::
      gensAux (ids ++ [generate_custom_id ids service_type mon yr])
        service_type mon yr n

/-- The ids produced by `n` successive generate-then-insert rounds
starting from store contents `ids`. -/
def gens (ids : List String) (service_type : String) (mon yr : Nat)
    (n : Nat) : List String :=
  gensAux ids service_type mon yr n

theorem strMk_data (s : String) : String.mk s.data = s := by
  cases s; rfl

theorem dch_toNat {d : Nat} (h : d ≤ 9) : (dch d).toNat = 48 + d := by
  interval_cases d <;> decide

theorem strLtData_irrefl (l : List Char) : strLtData l l = false := by
  induction l with
  | nil => rfl
  | cons c cs ih => simp [strLtData, ih]

theorem strLtData_append (p : List Char) (x y : List Char) :
    strLtData (p ++ x) (p ++ y) = strLtData x y := by
  induction p with
  | nil => rfl
  | cons c cs ih => simp [strLtData, ih]

theorem nil_mem_allSuffixes (s : List Char) : [] ∈ allSuffixes s := by
  induction s with
  | nil => simp [allSuffixes]
  | cons c cs ih => simp [allSuffixes, ih]

theorem likeM_append_percent (p : List Char) (s : List Char)
    (hp : '%' ∉ p) : likeM (p ++ ['%']) (p ++ s) = true := by
  induction p with
  | nil =>
    simp only [List.nil_append]
    have hx : ∃ x ∈ allSuffixes s, likeM [] x = true :=
      ⟨[], nil_mem_allSuffixes s, rfl⟩
    simpa [likeM] using hx
  | cons c cs ih =>
    have hc : c ≠ '%' := fun h => hp (by simp [h])
    have hcs : '%' ∉ cs := fun h => hp (by simp [h])
    simp only [List.cons_append, likeM, if_neg hc]
    by_cases h_ : c = '_'
    · simp [h_, ih hcs]
    · simp [h_, ih hcs]

theorem pad3_eq_digits {n : Nat} (h : n ≤ 999) :
    pad3 n = String.mk [dch (n / 100), dch (n / 10 % 10), dch (n % 10)] := by
  simp [pad3, h]

theorem pad3_lt {i k : Nat} (hik : i < k) (hk : k ≤ 999) :
    strLt (pad3 i) (pad3 k) = true := by
  have hi : i ≤ 999 := by omega
  rw [strLt, pad3_eq_digits hi, pad3_eq_digits hk]
  have d1 : i / 100 ≤ 9 := by omega
  have d2 : i / 10 % 10 ≤ 9 := by omega
  have d3 : i % 10 ≤ 9 := by omega
  have e1 : k / 100 ≤ 9 := by omega
  have e2 : k / 10 % 10 ≤ 9 := by omega
  have e3 : k % 10 ≤ 9 := by omega
  show strLtData [dch (i / 100), dch (i / 10 % 10), dch (i % 10)]
      [dch (k / 100), dch (k / 10 % 10), dch (k % 10)] = true
  simp only [strLtData, dch_toNat d1, dch_toNat d2, dch_toNat d3,
    dch_toNat e1, dch_toNat e2, dch_toNat e3]
  rcases Nat.lt_trichotomy (i / 100) (k / 100) with h1 | h1 | h1
  · rw [if_pos (by omega)]
  · rw [if_neg (by omega), if_neg (by omega)]
    rcases Nat.lt_trichotomy (i / 10 % 10) (k / 10 % 10) with h2 | h2 | h2
    · rw [if_pos (by omega)]
    · rw [if_neg (by omega), if_neg (by omega), if_pos (by omega)]
    · omega
  · omega

theorem maxString?_aux_mem (l : List String) : ∀ (acc : Option String) (m : String),
    l.foldl (fun acc s => match acc with
      | none => some s
      | some t => if strLt t s then some s else some t) acc = some m →
    m ∈ l ∨ acc = some m := by
  induction l with
  | nil => intro acc m h; exact Or.inr h
  | cons x xs ih =>
    intro acc m h
    rcases ih _ m h with hmem | hacc
    · exact Or.inl (List.mem_cons_of_mem x hmem)
    · match acc with
      | none => simp at hacc; exact Or.inl (hacc ▸ List.mem_cons_self x xs)
      | some t =>
        by_cases hlt : strLt t x = true
        · simp [hlt] at hacc; exact Or.inl (hacc ▸ List.mem_cons_self x xs)
        · simp [hlt] at hacc; exact Or.inr (by rw [hacc])

theorem maxString?_mem {l : List String} {m : String}
    (h : maxString? l = some m) : m ∈ l := by
  rcases maxString?_aux_mem l none m h with hmem | hacc
  · exact hmem
  · cases hacc

theorem maxString?_snoc {l : List String} {m : String}
    (h : ∀ x ∈ l, strLt x m = true) : maxString? (l ++ [m]) = some m := by
  rw [maxString?, List.foldl_append]
  rcases hfold : l.foldl (fun acc s => match acc with
      | none => some s
      | some t => if strLt t s then some s else some t) none with _ | t
  · rw [hfold]; rfl
  · rw [hfold]
    have ht : t ∈ l := maxString?_mem (by rw [maxString?]; exact hfold)
    simp [List.foldl, h t ht]

theorem lastCompData_no_underscore (t : List Char)
    (h : ∀ c ∈ t, c ≠ '_') : ∀ acc : List Char,
    t.foldl (fun acc c => if c = '_' then [] else acc ++ [c]) acc = acc ++ t := by
  induction t with
  | nil => intro acc; simp
  | cons c cs ih =>
    intro acc
    have hc : c ≠ '_' := h c (List.mem_cons_self c cs)
    have hcs : ∀ x ∈ cs, x ≠ '_' := fun x hx => h x (List.mem_cons_of_mem c hx)
    simp [List.foldl, hc, ih hcs]

theorem lastCompData_append_underscore (l t : List Char) :
    lastCompData (l ++ '_' :: t) = lastCompData t := by
  rw [lastCompData, lastCompData, show ('_' :: t) = ['_'] ++ t from rfl,
    ← List.append_assoc, List.foldl_append]
  simp

theorem dch_ne_of_toNat {d : Nat} (hd : d ≤ 9) {c : Char} (hc : 58 ≤ c.toNat ∨ c.toNat ≤ 47) :
    dch d ≠ c := by
  intro heq
  have h1 := dch_toNat hd
  rw [heq] at h1
  omega

theorem pad3_no_underscore {n : Nat} (h : n ≤ 999) :
    ∀ c ∈ (pad3 n).data, c ≠ '_' := by
  rw [pad3_eq_digits h]
  have d1 : n / 100 ≤ 9 := by omega
  have d2 : n / 10 % 10 ≤ 9 := by omega
  have d3 : n % 10 ≤ 9 := by omega
  have h95 : ('_' : Char).toNat = 95 := by decide
  intro c hc
  have hc2 : c = dch (n / 100) ∨ c = dch (n / 10 % 10) ∨ c = dch (n % 10) := by
    have hc3 : c ∈ [dch (n / 100), dch (n / 10 % 10), dch (n % 10)] := hc
    simpa using hc3
  rcases hc2 with h1 | h1 | h1 <;> rw [h1]
  · exact dch_ne_of_toNat d1 (by omega)
  · exact dch_ne_of_toNat d2 (by omega)
  · exact dch_ne_of_toNat d3 (by omega)

theorem lastComp_idPfx_pad3 (svc : String) (mon yr : Nat) {n : Nat}
    (hn : n ≤ 999) : lastComp (idPfx svc mon yr ++ pad3 n) = pad3 n := by
  have hsplit : (idPfx svc mon yr ++ pad3 n).data =
      ("GBB_SDA_" ++ (pad2 mon ++ pad2 (yr % 100)) ++ "_"
        ++ get_service_slug svc).data ++ '_' :: (pad3 n).data := by
    rw [idPfx]
    simp only [String.data_append]
    simp [String.data]
  rw [lastComp, hsplit, lastCompData_append_underscore, lastCompData,
    lastCompData_no_underscore _ (pad3_no_underscore hn) [], List.nil_append,
    strMk_data]

theorem parseDigits_digits {n : Nat} (hn : n ≤ 999) :
    parseDigits [dch (n / 100), dch (n / 10 % 10), dch (n % 10)] 0 = some n := by
  have d1 : n / 100 ≤ 9 := by omega
  have d2 : n / 10 % 10 ≤ 9 := by omega
  have d3 : n % 10 ≤ 9 := by omega
  rw [parseDigits, if_pos (by rw [dch_toNat d1]; omega)]
  rw [parseDigits, if_pos (by rw [dch_toNat d2]; omega)]
  rw [parseDigits, if_pos (by rw [dch_toNat d3]; omega)]
  rw [parseDigits]
  congr 1
  rw [dch_toNat d1, dch_toNat d2, dch_toNat d3]
  omega

theorem parseIntOpt_pad3 {n : Nat} (hn : n ≤ 999) :
    parseIntOpt (pad3 n) = some (n : Int) := by
  rw [pad3_eq_digits hn]
  have d1 : n / 100 ≤ 9 := by omega
  have hm : dch (n / 100) ≠ '-' := dch_ne_of_toNat d1 (by right; decide)
  have hp : dch (n / 100) ≠ '+' := dch_ne_of_toNat d1 (by right; decide)
  have hbody : parseIntData (dch (n / 100) :: [dch (n / 10 % 10), dch (n % 10)]) =
      (parseDigits (dch (n / 100) :: [dch (n / 10 % 10), dch (n % 10)]) 0).map
        (fun n => (n : Int)) := by
    rw [parseIntData, if_neg hm, if_neg hp]
    simp
  show parseIntData [dch (n / 100), dch (n / 10 % 10), dch (n % 10)] = some (n : Int)
  rw [hbody, parseDigits_digits hn]
  rfl

theorem get_service_slug_unknown (svc : String)
    (h : svc ∉ knownServiceTypes) : get_service_slug svc = "OT" := by
  rw [get_service_slug]
  have hnone : serviceSlugs.find? (fun kv => kv.1 == svc) = none := by
    rw [List.find?_eq_none]
    intro kv hkv hbeq
    have hkey : ∀ p ∈ serviceSlugs, p.1 ∈ knownServiceTypes := by decide
    have heq : kv.1 = svc := by simpa using hbeq
    exact h (heq ▸ hkey kv hkv)
  rw [hnone]

theorem slug_no_percent (svc : String) : '%' ∉ (get_service_slug svc).data := by
  rw [get_service_slug]
  rcases hf : serviceSlugs.find? (fun kv => kv.1 == svc) with _ | kv
  · rw [hf]; decide
  · rw [hf]
    have hkv : kv ∈ serviceSlugs := List.mem_of_find?_eq_some hf
    have hall : ∀ p ∈ serviceSlugs, '%' ∉ p.2.data := by decide
    exact hall kv hkv

theorem pad2_no_percent {n : Nat} (h : n ≤ 99) : '%' ∉ (pad2 n).data := by
  rw [pad2, if_pos h]
  intro hc
  have d1 : n / 10 ≤ 9 := by omega
  have d2 : n % 10 ≤ 9 := by omega
  have hc2 : '%' = dch (n / 10) ∨ '%' = dch (n % 10) := by
    have hc3 : '%' ∈ [dch (n / 10), dch (n % 10)] := hc
    simpa using hc3
  rcases hc2 with h1 | h1
  · exact dch_ne_of_toNat d1 (by right; decide) h1.symm
  · exact dch_ne_of_toNat d2 (by right; decide) h1.symm

theorem idPfx_no_percent (svc : String) {mon yr : Nat} (hm : mon ≤ 99) :
    '%' ∉ (idPfx svc mon yr).data := by
  rw [idPfx]
  intro hmem
  have h99 : yr % 100 ≤ 99 := by omega
  simp only [String.data_append] at hmem
  rcases List.mem_append.mp hmem with hm4 | h
  · rcases List.mem_append.mp hm4 with hm3 | h
    · rcases List.mem_append.mp hm3 with hm2 | h
      · rcases List.mem_append.mp hm2 with h | hp
        · exact absurd h (by decide)
        · rcases List.mem_append.mp hp with h1 | h1
          · exact pad2_no_percent hm h1
          · exact pad2_no_percent h99 h1
      · exact absurd h (by decide)
    · exact slug_no_percent svc h
  · exact absurd h (by decide)

theorem sqlLike_pfx_pad3 (svc : String) {mon yr : Nat} (hm : mon ≤ 99)
    (n : Nat) :
    sqlLike (idPfx svc mon yr ++ "%") (idPfx svc mon yr ++ pad3 n) = true := by
  rw [sqlLike, String.data_append, String.data_append]
  have hpc : ("%" : String).data = ['%'] := rfl
  rw [hpc]
  exact likeM_append_percent _ _ (idPfx_no_percent svc hm)

theorem generate_custom_id_step (svc : String) {mon yr : Nat} (hm : mon ≤ 99)
    (ids : List String) (c : Nat) (hc : c ≤ 998)
    (hfilter : ids.filter (fun s => sqlLike (idPfx svc mon yr ++ "%") s)
      = (List.range c).map (fun j => idPfx svc mon yr ++ pad3 (j + 1))) :
    generate_custom_id ids svc mon yr = idPfx svc mon yr ++ pad3 (c + 1) := by
  cases c with
  | zero =>
    unfold generate_custom_id
    rw [hfilter]
    rfl
  | succ m =>
    have h999 : m + 1 ≤ 999 := by omega
    have hmax : maxString? ((List.range (m + 1)).map
        (fun j => idPfx svc mon yr ++ pad3 (j + 1)))
        = some (idPfx svc mon yr ++ pad3 (m + 1)) := by
      rw [List.range_succ, List.map_append]
      apply maxString?_snoc
      intro x hx
      obtain ⟨j, hj, hfx⟩ := List.mem_map.mp hx
      have hjm : j < m := List.mem_range.mp hj
      rw [← hfx, strLt, String.data_append, String.data_append,
        strLtData_append]
      exact pad3_lt (by omega) h999
    have h1 : generate_custom_id ids svc mon yr =
        match parseIntOpt (lastComp (idPfx svc mon yr ++ pad3 (m + 1))) with
        | some n => idPfx svc mon yr ++ pad3i (n + 1)
        | none => idPfx svc mon yr ++ pad3 1 := by
      unfold generate_custom_id
      rw [hfilter, hmax]
    rw [h1, lastComp_idPfx_pad3 svc mon yr h999, parseIntOpt_pad3 h999]
    show idPfx svc mon yr ++ pad3i (((m + 1 : Nat) : Int) + 1)
      = idPfx svc mon yr ++ pad3 (m + 1 + 1)
    congr 1

theorem gensAux_spec (svc : String) {mon yr : Nat} (hm : mon ≤ 99) :
    ∀ (N c : Nat) (ids : List String), c + N ≤ 999 →
    ids.filter (fun s => sqlLike (idPfx svc mon yr ++ "%") s)
      = (List.range c).map (fun j => idPfx svc mon yr ++ pad3 (j + 1)) →
    gensAux ids svc mon yr N
      = (List.range N).map (fun j => idPfx svc mon yr ++ pad3 (c + j + 1)) := by
  intro N
  induction N with
  | zero => intro c ids _ _; rfl
  | succ N ih =>
    intro c ids hcN hfilter
    have hgen := generate_custom_id_step svc hm ids c (by omega) hfilter
    rw [gensAux, hgen]
    have hfilter2 : (ids ++ [idPfx svc mon yr ++ pad3 (c + 1)]).filter
        (fun s => sqlLike (idPfx svc mon yr ++ "%") s)
        = (List.range (c + 1)).map
          (fun j => idPfx svc mon yr ++ pad3 (j + 1)) := by
      rw [List.filter_append, hfilter]
      have hone : List.filter (fun s => sqlLike (idPfx svc mon yr ++ "%") s)
          [idPfx svc mon yr ++ pad3 (c + 1)]
          = [idPfx svc mon yr ++ pad3 (c + 1)] := by
        simp [List.filter, sqlLike_pfx_pad3 svc hm (c + 1)]
      rw [hone, List.range_succ, List.map_append]
      rfl
    rw [ih (c + 1) _ (by omega) hfilter2]
    rw [List.range_succ_eq_map, List.map_cons, List.map_map]
    congr 1
    apply List.map_congr_left
    intro a _
    simp only [Function.comp]
    congr 2
    omega

/-- Claim C5: starting from a store with no custom id matching the
month-and-slug prefix pattern, `n` generate-then-insert rounds for a fixed
service type and month (`n ≤ 999`, the range of three-digit suffixes)
produce exactly the ids `prefix ++ 001, prefix ++ 002, ...`: pairwise
distinct, strictly increasing, with suffixes starting at 001.  Unknown
service types use the fallback slug `OT`, and the Collocation prefix for
month 03/25 is `GBB_SDA_0325_CS_`. -/
theorem generate_id_sequence_spec (svc : String) (mon yr N : Nat)
    (ids : List String) (hm : mon ≤ 99) (hN : N ≤ 999)
    (h0 : ids.filter (fun s => sqlLike (idPfx svc mon yr ++ "%") s) = []) :
    gens ids svc mon yr N
      = (List.range N).map (fun j => idPfx svc mon yr ++ pad3 (j + 1))
    ∧ (gens ids svc mon yr N).Pairwise (fun a b => strLt a b = true)
    ∧ (gens ids svc mon yr N).Nodup
    ∧ (svc ∉ knownServiceTypes → get_service_slug svc = "OT")
    ∧ idPfx "Collocation" 3 2025 = "GBB_SDA_0325_CS_" := by
  have hmain : gens ids svc mon yr N
      = (List.range N).map (fun j => idPfx svc mon yr ++ pad3 (j + 1)) := by
    have h00 : ids.filter (fun s => sqlLike (idPfx svc mon yr ++ "%") s)
        = (List.range 0).map (fun j => idPfx svc mon yr ++ pad3 (j + 1)) := by
      rw [h0]; rfl
    have hg := gensAux_spec svc hm N 0 ids (by omega) h00
    rw [gens, hg]
    apply List.map_congr_left
    intro a _
    have hz : 0 + a + 1 = a + 1 := by omega
    rw [hz]
  have hpair : (gens ids svc mon yr N).Pairwise
      (fun a b => strLt a b = true) := by
    rw [hmain, List.pairwise_map]
    refine List.Pairwise.imp_of_mem ?_ (List.pairwise_lt_range N)
    intro a b ha hb hab
    have hbN : b < N := List.mem_range.mp hb
    rw [strLt, String.data_append, String.data_append, strLtData_append]
    exact pad3_lt (by omega) (by omega)
  have hnodup : (gens ids svc mon yr N).Nodup := by
    refine hpair.imp ?_
    intro a b hab heq
    rw [heq, strLt, strLtData_irrefl] at hab
    cases hab
  refine ⟨hmain, hpair, hnodup, ?_, by decide⟩
  exact get_service_slug_unknown svc

/-- Claim C5 witness: the first Collocation request of month 03/25
receives the custom id `GBB_SDA_0325_CS_001`, and three successive
creations receive 001, 002, 003. -/
theorem generate_id_sequence_witness :
    gens [] "Collocation" 3 2025 3
      = ["GBB_SDA_0325_CS_001", "GBB_SDA_0325_CS_002", "GBB_SDA_0325_CS_003"] := by
  have h := generate_id_sequence_spec "Collocation" 3 2025 3 []
    (by decide) (by decide) rfl
  exact h.1.trans (by decide)

/-- Claim C10: whenever the lexicographically greatest stored custom id
matching the month-and-slug pattern has a final underscore-separated
component that does not parse as an integer, `generate_custom_id` silently
restarts the bucket at sequence number 001 (`prefix ++ "001"`), raising no
error. -/
theorem generate_custom_id_unparsed_spec (ids : List String) (svc : String)
    (mon yr : Nat) (m : String)
    (hmax : maxString? (ids.filter
      (fun s => sqlLike (idPfx svc mon yr ++ "%") s)) = some m)
    (hparse : parseIntOpt (lastComp m) = none) :
    generate_custom_id ids svc mon yr = idPfx svc mon yr ++ "001" := by
  unfold generate_custom_id
  rw [hmax]
  show (match parseIntOpt (lastComp m) with
    | some n => idPfx svc mon yr ++ pad3i (n + 1)
    | none => idPfx svc mon yr ++ pad3 1) = idPfx svc mon yr ++ "001"
  rw [hparse]
  show idPfx svc mon yr ++ pad3 1 = idPfx svc mon yr ++ "001"
  congr 1

/-- Claim C10 witness: with stored ids `GBB_SDA_0325_CS_001` and
`GBB_SDA_0325_CS_ABC`, the latter is the lexicographic maximum, `ABC` does
not parse, and the generated id `GBB_SDA_0325_CS_001` collides with an
existing one. -/
theorem generate_custom_id_unparsed_witness :
    generate_custom_id ["GBB_SDA_0325_CS_001", "GBB_SDA_0325_CS_ABC"]
        "Collocation" 3 2025 = "GBB_SDA_0325_CS_001"
    ∧ "GBB_SDA_0325_CS_001"
        ∈ ["GBB_SDA_0325_CS_001", "GBB_SDA_0325_CS_ABC"] := by
  constructor
  · have h := generate_custom_id_unparsed_spec
      ["GBB_SDA_0325_CS_001", "GBB_SDA_0325_CS_ABC"] "Collocation" 3 2025
      "GBB_SDA_0325_CS_ABC" (by decide) (by decide)
    exact h.trans (by decide)
  · decide

/-- An SQLite value of the dynamically typed `target_days` column: NULL,
an INTEGER, or (SQLite never coerces non-numeric text) a TEXT such as
`"N/A"`. -/
inductive TVal where
  | null : TVal
  | intv (n : Int) : TVal
  | textv (s : String) : TVal
deriving DecidableEq, Repr

/-- A row of the `requests` table (models.py lines 164-185), with dates as
day ordinals and `created_date` as a creation timestamp.  Text fields not
read by any claimed computation are omitted. -/
structure Row where
  rid : Nat
  custom_id : String
  customer_name : String
  status : String
  date_request_received : Nat
  target_days : TVal
  sent_out_date : Option Nat
  duration_days : Int
  created_date : Nat
deriving DecidableEq, Repr

/-- models.py lines 232-242, `get_status_sort_order`: priority of a status
for report sorting, unknown statuses last. -/
def get_status_sort_order (status : String) : Nat :=
  if status = "Closed Request" then 1
  else if status = "Pending with Presales" then 2
  else if status = "Pending review" then 3
  else if status = "Pending approval" then 4
  else if status = "in_progress" then 5
  else 999

/-- The SQL predicate `target_days IS NOT NULL`. -/
def sqlTargetNotNull : TVal → Bool
  | TVal.null => false
  | _ => true

/-- The SQL comparison `duration_days > target_days`: false on NULL, the
integer comparison on INTEGER, and false on TEXT because in the SQLite
type ordering every INTEGER sorts below every TEXT. -/
def sqlGtTarget (d : Int) : TVal → Bool
  | TVal.null => false
  | TVal.intv n => decide (n < d)
  | TVal.textv _ => false

/-- The WHERE clause built by `Request.get_all` (models.py lines 250-267):
inclusive received-date bounds when given, and the overdue restriction
`target_days IS NOT NULL AND duration_days > target_days AND
status != "Closed Request"` when `overdue_only`. -/
def getAllFilter (date_from date_to : Option Nat) (overdue_only : Bool)
    (r : Row) : Bool :=
  (match date_from with
    | none => true
    | some f => decide (f ≤ r.date_request_received))
  && (match date_to with
    | none => true
    | some t => decide (r.date_request_received ≤ t))
  && (!overdue_only
      || (sqlTargetNotNull r.target_days
          && sqlGtTarget r.duration_days r.target_days
          && !(r.status == "Closed Request")))

/-- The `ORDER BY created_date DESC` comparison. -/
def createdDescLe (a b : Row) : Bool :=
  decide (b.created_date ≤ a.created_date)

/-- The read-time projection of `Request.get_all` (models.py lines
274-280): a non-closed row has `duration_days` recomputed from its
received date to today; a closed row is returned as stored.  The store is
not written. -/
def projectLive (today : Nat) (r : Row) : Row :=
  if r.status ≠ "Closed Request" then
    { r with duration_days :=
        (calculate_working_days r.date_request_received today : Int) }
  else r

/-- models.py lines 244-283, `Request.get_all`: filter, order newest
first, then project live durations. -/
def get_all (today : Nat) (rows : List Row) (date_from date_to : Option Nat)
    (overdue_only : Bool) : List Row :=
  ((rows.filter (getAllFilter date_from date_to overdue_only)).mergeSort
    createdDescLe).map (projectLive today)

/-- The partial update dictionary passed to `Request.update`: `none`
stands for a key that is absent (or has a falsy value, which line 311
treats the same for `sent_out_date`). -/
structure UpdateData where
  status : Option String
  sent_out_date : Option Nat
  date_request_received : Option Nat
  target_days : Option TVal
deriving DecidableEq, Repr

/-- models.py lines 309-312: when the incoming status is `Closed Request`
and no close date is supplied, stamp `sent_out_date` with today. -/
def stampSent (today : Nat) (d : UpdateData) : UpdateData :=
  if d.status = some "Closed Request" ∧ d.sent_out_date = none then
    { d with sent_out_date := some today }
  else d

/-- models.py lines 314-317: `duration_days` is recomputed only when
`date_request_received` is part of the update, with the close date as the
end bound when the status is being set to `Closed Request` (an absent end
bound means today). -/
def updateDuration (today : Nat) (d : UpdateData) : Option Int :=
  match d.date_request_received with
  | none => none
  | some rcv => some (calculate_working_days rcv
      (if d.status = some "Closed Request" then d.sent_out_date.getD today
       else today))

/-- models.py lines 298-337, the field application of `Request.update`:
stamp the close date, recompute the duration when the received date is
updated, and overwrite exactly the supplied fields. -/
def applyUpdate (today : Nat) (d0 : UpdateData) (r : Row) : Row :=
  { r with
    status := (stampSent today d0).status.getD r.status,
    sent_out_date := match (stampSent today d0).sent_out_date with
      | some s => some s
      | none => r.sent_out_date,
    date_request_received :=
      (stampSent today d0).date_request_received.getD r.date_request_received,
    target_days := (stampSent today d0).target_days.getD r.target_days,
    duration_days :=
      (updateDuration today (stampSent today d0)).getD r.duration_days }

/-- The duration a read returns for a row: stored for a closed row,
recomputed from received date to today otherwise (models.py lines 273-280
and 416-420). -/
def readDuration (today : Nat) (r : Row) : Int :=
  if r.status = "Closed Request" then r.duration_days
  else (calculate_working_days r.date_request_received today : Int)

/-- Python truthiness of a `target_days` value (`if target_days:`,
models.py line 423). -/
def targetTruthy : TVal → Bool
  | TVal.null => false
  | TVal.intv n => decide (n ≠ 0)
  | TVal.textv s => !(s == "")

/-- The `int(target_days) if isinstance(target_days, str) else
target_days` conversion of models.py line 425; `none` is the
`(ValueError, TypeError)` the loop catches and skips. -/
def targetParse : TVal → Option Int
  | TVal.null => none
  | TVal.intv n => some n
  | TVal.textv s => parseIntOpt s

/-- One iteration of the overdue loop of `Request.get_stats` (models.py
lines 413-429): truthy target, successful integer conversion, positive
target, live duration above target. -/
def statsLoopHit (today : Nat) (r : Row) : Bool :=
  if targetTruthy r.target_days then
    match targetParse r.target_days with
    | some t => decide (0 < t) && decide (t < readDuration today r)
    | none => false
  else false

/-- models.py lines 405-429: the overdue count of `Request.get_stats`,
a loop over the rows with non-NULL `target_days`. -/
def statsOverdue (today : Nat) (rows : List Row) : Nat :=
  (rows.filter (fun r => sqlTargetNotNull r.target_days)).foldl
    (fun acc r => if statsLoopHit today r then acc + 1 else acc) 0

/-- The working request set of the report queries (models.py lines
498-503, 593-598, 695-700): `status != "Closed Request" OR
DATE(sent_out_date)` in the period (SQL `=` and `BETWEEN` on a NULL date
are not satisfied). -/
def reportRequestFilter (inPeriod : Nat → Bool) (r : Row) : Bool :=
  !(r.status == "Closed Request")
    || (match r.sent_out_date with
        | some d => inPeriod d
        | none => false)

/-- The `requests.sort(key=get_status_sort_order)` comparison. -/
def statusLe (a b : Row) : Bool :=
  decide (get_status_sort_order a.status ≤ get_status_sort_order b.status)

/-- The working request set of every report: filter, then sort by status
priority (models.py lines 498-507). -/
def reportWorkingSet (inPeriod : Nat → Bool) (rows : List Row) : List Row :=
  (rows.filter (reportRequestFilter inPeriod)).mergeSort statusLe

/-- The overdue scalar shared by the daily, weekly and monthly report
queries (models.py lines 480-485, 556-562, 650-656):
`COUNT(*) WHERE target_days IS NOT NULL AND duration_days > target_days`
over the stored rows, with no period restriction. -/
def reportOverdueCount (rows : List Row) : Nat :=
  (rows.filter (fun r => sqlTargetNotNull r.target_days
    && sqlGtTarget r.duration_days r.target_days)).length

/-- The period test of the daily report: `DATE(sent_out_date) = ?`. -/
def dailyPeriod (target : Nat) : Nat → Bool := fun d => d == target

/-- The period test of the weekly and monthly reports:
`DATE(...) BETWEEN ? AND ?`. -/
def rangePeriod (startD endD : Nat) : Nat → Bool :=
  fun d => decide (startD ≤ d ∧ d ≤ endD)

/-- The scalar block and request list shared by the three report
payloads. -/
structure ReportData where
  created : Nat
  completed : Nat
  in_progress : Nat
  overdue : Nat
  requests : List Row
deriving DecidableEq, Repr

/-- The common shape of `get_daily_report`, `get_weekly_report` and
`get_monthly_report` (models.py lines 452-717), parameterised by the
period predicate on dates: counts of rows created and completed in the
period, the global in-progress and overdue counts, and the sorted working
request set. -/
def get_report (inPeriod : Nat → Bool) (rows : List Row) : ReportData :=
  { created := (rows.filter (fun r => inPeriod r.created_date)).length,
    completed := (rows.filter (fun r =>
      (match r.sent_out_date with
        | some d => inPeriod d
        | none => false) && (r.status == "Closed Request"))).length,
    in_progress := (rows.filter (fun r => r.status == "in_progress")).length,
    overdue := reportOverdueCount rows,
    requests := reportWorkingSet inPeriod rows }

/-- models.py lines 452-518, `Request.get_daily_report`. -/
def get_daily_report (rows : List Row) (target : Nat) : ReportData :=
  get_report (dailyPeriod target) rows

/-- report_exporters.py lines 21-58, the `hex` entries of the shared
`ReportExporter.get_status_color` table, with the default white. -/
def get_status_color_hex (status : String) : String :=
  if status = "in_progress" then "#FEF3C7"
  else if status = "Pending with Presales" then "#E5E7EB"
  else if status = "Pending review" then "#E9D5FF"
  else if status = "Pending approval" then "#FED7AA"
  else if status = "Closed Request" then "#DCFCE7"
  else "#FFFFFF"

/-- The `rgb` entries of the same table. -/
def get_status_color_rgb (status : String) : Nat × Nat × Nat :=
  if status = "in_progress" then (254, 243, 199)
  else if status = "Pending with Presales" then (229, 231, 235)
  else if status = "Pending review" then (233, 213, 255)
  else if status = "Pending approval" then (254, 215, 170)
  else if status = "Closed Request" then (220, 252, 231)
  else (255, 255, 255)

/-- The `reportlab` entries of the same table, as the numerators of the
`colors.Color(r/255, g/255, b/255)` components (`colors.white` is
`(255, 255, 255)`). -/
def get_status_color_rl (status : String) : Nat × Nat × Nat :=
  if status = "in_progress" then (254, 243, 199)
  else if status = "Pending with Presales" then (229, 231, 235)
  else if status = "Pending review" then (233, 213, 255)
  else if status = "Pending approval" then (254, 215, 170)
  else if status = "Closed Request" then (220, 252, 231)
  else (255, 255, 255)

/-- report_exporters.py lines 60-64, the shared `ReportExporter.is_overdue`:
`request.get("target_days") and request.get("duration_days", 0) >
request.get("target_days", 0)`.  A falsy target (NULL, 0 or the empty
string) short-circuits to not-overdue; a non-empty TEXT target reaches the
`int > str` comparison, the `TypeError` of which is modelled as `none`. -/
def is_overdue (r : Row) : Option Bool :=
  match r.target_days with
  | TVal.null => some false
  | TVal.intv t => if t = 0 then some false else some (decide (t < r.duration_days))
  | TVal.textv s => if s = "" then some false else none

/-- The row background the PDF renderer applies (report_exporters.py
lines 232-234): the `reportlab` color of the row status. -/
def pdfRowColor (r : Row) : Nat × Nat × Nat := get_status_color_rl r.status

/-- The PDF overdue flag for the duration cell (lines 237-238). -/
def pdfRowOverdue (r : Row) : Option Bool := is_overdue r

/-- The cell fill the Excel renderer applies (report_exporters.py lines
415-418): the `hex` color of the row status with `#` stripped by
`replace("#", "")`. -/
def excelRowFill (r : Row) : String :=
  String.mk ((get_status_color_hex r.status).data.filter (fun c => !(c == '#')))

/-- The Excel overdue flag for the duration cell (lines 421-422). -/
def excelRowOverdue (r : Row) : Option Bool := is_overdue r

/-- Value of one hexadecimal digit. -/
def hexDigitVal (c : Char) : Option Nat :=
  if 48 ≤ c.toNat ∧ c.toNat ≤ 57 then some (c.toNat - 48)
  else if 65 ≤ c.toNat ∧ c.toNat ≤ 70 then some (c.toNat - 55)
  else if 97 ≤ c.toNat ∧ c.toNat ≤ 102 then some (c.toNat - 87)
  else none

/-- Value of a two-digit hexadecimal byte. -/
def hexPair (a b : Char) : Option Nat :=
  match hexDigitVal a, hexDigitVal b with
  | some x, some y => some (16 * x + y)
  | _, _ => none

/-- The RGB triple denoted by a six-digit hex color string such as
`FEF3C7`. -/
def hexToRGB (s : String) : Option (Nat × Nat × Nat) :=
  match s.data with
  | [a, b, c, d, e, f] =>
    match hexPair a b, hexPair c d, hexPair e f with
    | some r, some g, some bl => some (r, g, bl)
    | _, _, _ => none
  | _ => none

/-- Modelled from the spec (section 4.6): the overdue predicate as the
spec words it, `target_days` set and `duration_days > target_days`,
independent of status. -/
def specOverduePred (r : Row) : Bool :=
  sqlTargetNotNull r.target_days && sqlGtTarget r.duration_days r.target_days

theorem statusLe_trans (a b c : Row) (h1 : statusLe a b = true)
    (h2 : statusLe b c = true) : statusLe a c = true := by
  simp only [statusLe, decide_eq_true_eq] at *
  omega

theorem statusLe_total (a b : Row) : (statusLe a b || statusLe b a) = true := by
  simp only [statusLe, Bool.or_eq_true, decide_eq_true_eq]
  omega

theorem reportRequestFilter_iff (inPeriod : Nat → Bool) (x : Row) :
    reportRequestFilter inPeriod x = true ↔
      (x.status ≠ "Closed Request"
        ∨ ∃ d, x.sent_out_date = some d ∧ inPeriod d = true) := by
  rw [reportRequestFilter]
  cases hs : x.sent_out_date with
  | none => simp [hs]
  | some d0 => simp [hs]

/-- Claim C2: for every reporting period (the daily `=`, weekly and
monthly `BETWEEN` queries all instantiate `inPeriod`), the working request
set contains exactly the rows that are not closed together with the rows
whose close date falls in the period, sorted by the status priority table
(Closed Request 1, Pending with Presales 2, Pending review 3, Pending
approval 4, in_progress 5, anything else 999); in particular every closed
row precedes every in-progress row, and the daily report request list is
this working set. -/
theorem report_working_set_spec (inPeriod : Nat → Bool) (rows : List Row)
    (target : Nat) :
    (∀ x : Row, x ∈ reportWorkingSet inPeriod rows ↔
      (x ∈ rows ∧ (x.status ≠ "Closed Request"
        ∨ ∃ d, x.sent_out_date = some d ∧ inPeriod d = true)))
    ∧ (reportWorkingSet inPeriod rows).Pairwise
        (fun a b => get_status_sort_order a.status ≤ get_status_sort_order b.status)
    ∧ (reportWorkingSet inPeriod rows).Pairwise
        (fun a b => ¬(a.status = "in_progress" ∧ b.status = "Closed Request"))
    ∧ (∀ s : String, get_status_sort_order s =
        if s = "Closed Request" then 1
        else if s = "Pending with Presales" then 2
        else if s = "Pending review" then 3
        else if s = "Pending approval" then 4
        else if s = "in_progress" then 5
        else 999)
    ∧ (get_daily_report rows target).requests
        = reportWorkingSet (dailyPeriod target) rows := by
  have hperm := List.mergeSort_perm (rows.filter (reportRequestFilter inPeriod))
    statusLe
  have hsorted : (reportWorkingSet inPeriod rows).Pairwise
      (fun a b => statusLe a b = true) :=
    List.sorted_mergeSort statusLe_trans statusLe_total
      (rows.filter (reportRequestFilter inPeriod))
  refine ⟨?_, ?_, ?_, fun s => rfl, rfl⟩
  · intro x
    rw [reportWorkingSet, hperm.mem_iff, List.mem_filter,
      reportRequestFilter_iff]
  · exact hsorted.imp (by
      intro a b h
      simpa [statusLe] using h)
  · refine hsorted.imp ?_
    intro a b h hcontra
    rcases hcontra with ⟨ha, hb⟩
    rw [statusLe, ha, hb] at h
    exact absurd h (by decide)

theorem createdDescLe_trans (a b c : Row) (h1 : createdDescLe a b = true)
    (h2 : createdDescLe b c = true) : createdDescLe a c = true := by
  simp only [createdDescLe, decide_eq_true_eq] at *
  omega

theorem createdDescLe_total (a b : Row) :
    (createdDescLe a b || createdDescLe b a) = true := by
  simp only [createdDescLe, Bool.or_eq_true, decide_eq_true_eq]
  omega

theorem projectLive_created (today : Nat) (r : Row) :
    (projectLive today r).created_date = r.created_date := by
  rw [projectLive]
  split <;> rfl

theorem getAllFilter_iff (date_from date_to : Option Nat) (ov : Bool)
    (r : Row) :
    getAllFilter date_from date_to ov r = true ↔
      ((match date_from with
        | none => True
        | some f => f ≤ r.date_request_received)
       ∧ (match date_to with
        | none => True
        | some t => r.date_request_received ≤ t)
       ∧ (ov = true →
          ((∃ n : Int, r.target_days = TVal.intv n ∧ n < r.duration_days)
            ∧ r.status ≠ "Closed Request"))) := by
  unfold getAllFilter
  cases date_from <;> cases date_to <;> cases ov <;>
    cases ht : r.target_days <;>
      simp [ht, sqlTargetNotNull, sqlGtTarget, and_assoc]

/-- Claim C4: `get_all` returns exactly the rows inside the inclusive
received-date bounds, restricted when `overdue_only` to rows with an
integer target exceeded by the stored duration and a non-closed status;
each returned row is the live projection of a stored row (the duration of
a non-closed row is recomputed from its received date to today, a closed
row is returned unchanged, and the store itself is never written), and
the result is ordered by creation time descending. -/
theorem get_all_spec (today : Nat) (rows : List Row)
    (date_from date_to : Option Nat) (overdue_only : Bool) :
    (∀ x : Row, x ∈ get_all today rows date_from date_to overdue_only ↔
      ∃ r, r ∈ rows
        ∧ (match date_from with
          | none => True
          | some f => f ≤ r.date_request_received)
        ∧ (match date_to with
          | none => True
          | some t => r.date_request_received ≤ t)
        ∧ (overdue_only = true →
            ((∃ n : Int, r.target_days = TVal.intv n ∧ n < r.duration_days)
              ∧ r.status ≠ "Closed Request"))
        ∧ x = projectLive today r
        ∧ (r.status ≠ "Closed Request" →
            x.duration_days
              = (calculate_working_days r.date_request_received today : Int))
        ∧ (r.status = "Closed Request" → x = r))
    ∧ (get_all today rows date_from date_to overdue_only).Pairwise
        (fun a b => b.created_date ≤ a.created_date) := by
  constructor
  · intro x
    rw [get_all, List.mem_map]
    constructor
    · rintro ⟨y, hy, rfl⟩
      have hy2 := (List.mergeSort_perm
        (rows.filter (getAllFilter date_from date_to overdue_only))
        createdDescLe).mem_iff.mp hy
      obtain ⟨hyr, hyf⟩ := List.mem_filter.mp hy2
      obtain ⟨h1, h2, h3⟩ := (getAllFilter_iff date_from date_to overdue_only y).mp hyf
      refine ⟨y, hyr, h1, h2, h3, rfl, ?_, ?_⟩
      · intro hne
        rw [projectLive, if_pos hne]
      · intro hcl
        rw [projectLive, if_neg (by simp [hcl])]
    · rintro ⟨r, hr, h1, h2, h3, rfl, -, -⟩
      refine ⟨r, ?_, rfl⟩
      exact (List.mergeSort_perm _ _).mem_iff.mpr
        (List.mem_filter.mpr ⟨hr,
          (getAllFilter_iff date_from date_to overdue_only r).mpr ⟨h1, h2, h3⟩⟩)
  · have hsorted := List.sorted_mergeSort createdDescLe_trans createdDescLe_total
      (rows.filter (getAllFilter date_from date_to overdue_only))
    rw [get_all, List.pairwise_map]
    refine hsorted.imp ?_
    intro a b h
    rw [projectLive_created, projectLive_created]
    simpa [createdDescLe] using h

/-- Claim C3 counterexample: a request received 2024-01-01 and created the
same day stores `duration_days = 1`; closing it on 2024-01-12 with an
update that carries only the new status stamps the close date but leaves
the stored duration at 1, while the working-day span from receipt to the
close date is 10 - so the frozen value is not the value computed when it
was closed. -/
theorem close_freeze_counterexample :
    (applyUpdate 738897 ⟨some "Closed Request", none, none, none⟩
      ⟨1, "GBB_SDA_0124_IS_001", "Acme", "in_progress", 738886, TVal.null,
        none, 1, 5⟩).sent_out_date = some 738897
    ∧ (applyUpdate 738897 ⟨some "Closed Request", none, none, none⟩
      ⟨1, "GBB_SDA_0124_IS_001", "Acme", "in_progress", 738886, TVal.null,
        none, 1, 5⟩).status = "Closed Request"
    ∧ readDuration 738899 (applyUpdate 738897
      ⟨some "Closed Request", none, none, none⟩
      ⟨1, "GBB_SDA_0124_IS_001", "Acme", "in_progress", 738886, TVal.null,
        none, 1, 5⟩) = 1
    ∧ (calculate_working_days 738886 738897 : Int) = 10
    ∧ ((1 : Int) = 10 → False) := by
  decide

/-- Claim C3 amended: updating a request to `Closed Request` with no close
date supplied stamps `sent_out_date` with today; once a row is closed,
reads return its stored `duration_days` unchanged, while reads of a
non-closed row recompute the duration from the received date to today;
the stored duration is recomputed at close time only when
`date_request_received` is part of the update (then from that received
date to the stamped close date) - otherwise it keeps the value stored
before the close. -/
theorem close_stamp_freeze_amended (today tRead : Nat) (r : Row)
    (d : UpdateData) (rcv : Nat) :
    (applyUpdate today
      { d with status := some "Closed Request", sent_out_date := none }
      r).sent_out_date = some today
    ∧ (applyUpdate today ⟨some "Closed Request", none, none, d.target_days⟩
        r).duration_days = r.duration_days
    ∧ (applyUpdate today ⟨some "Closed Request", none, some rcv, d.target_days⟩
        r).duration_days = (calculate_working_days rcv today : Int)
    ∧ readDuration tRead { r with status := "Closed Request" }
        = r.duration_days
    ∧ readDuration tRead r
        = (if r.status = "Closed Request" then r.duration_days
           else (calculate_working_days r.date_request_received tRead : Int)) := by
  refine ⟨?_, ?_, ?_, ?_, rfl⟩
  · simp [applyUpdate, stampSent]
  · simp [applyUpdate, stampSent, updateDuration]
  · simp [applyUpdate, stampSent, updateDuration]
  · simp [readDuration]

/-- Claim C6 counterexample: on a closed row with `target_days = 0` and
`duration_days = 5` the predicate worded by the spec (target set and
duration above target) holds, yet neither renderer flags the row, because
the shared `is_overdue` treats the falsy target 0 as not overdue. -/
theorem renderer_overdue_zero_target_counterexample :
    specOverduePred ⟨1, "GBB_SDA_0124_IS_001", "Acme", "Closed Request",
      738886, TVal.intv 0, some 738890, 5, 10⟩ = true
    ∧ pdfRowOverdue ⟨1, "GBB_SDA_0124_IS_001", "Acme", "Closed Request",
      738886, TVal.intv 0, some 738890, 5, 10⟩ = some false
    ∧ excelRowOverdue ⟨1, "GBB_SDA_0124_IS_001", "Acme", "Closed Request",
      738886, TVal.intv 0, some 738890, 5, 10⟩ = some false := by
  decide

/-- Claim C6 amended: the document and spreadsheet renderers assign every
row the same status color (the hex fill of the spreadsheet denotes
exactly the reportlab triple of the document, which equals the rgb entry
of the shared table, with white for unknown statuses), flag exactly the
same rows as overdue, and the shared overdue predicate is: `target_days`
is a nonzero integer and `duration_days` exceeds it, independent of
status; both use the same red highlight FECACA = (254, 202, 202). -/
theorem renderer_agreement_amended (r : Row) :
    hexToRGB (excelRowFill r) = some (pdfRowColor r)
    ∧ get_status_color_rl r.status = get_status_color_rgb r.status
    ∧ pdfRowOverdue r = excelRowOverdue r
    ∧ (pdfRowOverdue r = some true ↔
        ∃ t : Int, r.target_days = TVal.intv t ∧ t ≠ 0 ∧ t < r.duration_days)
    ∧ hexToRGB "FECACA" = some (254, 202, 202) := by
  refine ⟨?_, ?_, rfl, ?_, by decide⟩
  · rw [excelRowFill, pdfRowColor, get_status_color_hex, get_status_color_rl]
    split_ifs <;> decide
  · rfl
  · rw [pdfRowOverdue, is_overdue]
    cases ht : r.target_days with
    | null => simp [ht]
    | intv t =>
      by_cases h0 : t = 0
      · simp [ht, h0]
      · simp [ht, h0]
    | textv s =>
      by_cases hs : s = ""
      · simp [ht, hs]
      · simp [ht, hs]

/-- Claim C7 counterexample: one in-progress request received 2024-01-01
with stored duration 1 and integer target 5, read on 2024-01-14: the
`get_stats` overdue count re-derives the live duration (10 > 5) and
reports 1, but the daily/weekly/monthly report overdue scalar compares
the stored duration (1 > 5 fails) and reports 0. -/
theorem report_overdue_counterexample :
    statsOverdue 738899 [⟨1, "GBB_SDA_0124_IS_001", "Acme", "in_progress",
      738886, TVal.intv 5, none, 1, 10⟩] = 1
    ∧ (get_daily_report [⟨1, "GBB_SDA_0124_IS_001", "Acme", "in_progress",
      738886, TVal.intv 5, none, 1, 10⟩] 738899).overdue = 0
    ∧ reportOverdueCount [⟨1, "GBB_SDA_0124_IS_001", "Acme", "in_progress",
      738886, TVal.intv 5, none, 1, 10⟩] = 0 := by
  decide

/-- Claim C7 amended: the overdue scalar of every report is global (it
does not depend on the period) but it is computed from the stored
`duration_days` column: it counts exactly the rows whose `target_days` is
an integer below the stored duration, with no live recomputation, no
exclusion of closed rows, and TEXT targets never counted; it therefore
differs from the live-recomputed `get_stats` count. -/
theorem report_overdue_amended (inPeriod : Nat → Bool) (rows : List Row) :
    (get_report inPeriod rows).overdue = reportOverdueCount rows
    ∧ reportOverdueCount rows = (rows.filter (fun r =>
        match r.target_days with
        | TVal.intv t => decide (t < r.duration_days)
        | _ => false)).length := by
  refine ⟨rfl, ?_⟩
  rw [reportOverdueCount]
  congr 1
  apply List.filter_congr
  intro r _
  cases ht : r.target_days <;> simp [ht, sqlTargetNotNull, sqlGtTarget]

theorem foldl_count {α : Type} (p : α → Bool) (l : List α) : ∀ a : Nat,
    l.foldl (fun acc r => if p r then acc + 1 else acc) a
      = a + (l.filter p).length := by
  induction l with
  | nil => intro a; simp
  | cons x xs ih =>
    intro a
    rw [List.foldl_cons, List.filter_cons]
    by_cases hp : p x = true
    · rw [if_pos hp, if_pos hp, ih]
      simp
      omega
    · rw [if_neg hp, if_neg hp, ih]

/-- Claim C8: the `get_stats` overdue count never fails on non-numeric
`target_days` values: it counts exactly the rows whose target converts to
a positive integer below the (live for non-closed, frozen for closed)
duration, so a row whose target does not parse - such as the string
`N/A` - is skipped rather than raising, never counted, and rows that do
not exceed their target are not counted either. -/
theorem get_stats_overdue_spec (today : Nat) (rows : List Row) :
    statsOverdue today rows = (rows.filter (fun r =>
        match targetParse r.target_days with
        | some t => decide (0 < t) && decide (t < readDuration today r)
        | none => false)).length
    ∧ (∀ r : Row, statsOverdue today
        ({ r with target_days := TVal.textv "N/A" } :: rows)
        = statsOverdue today rows) := by
  have hchar : ∀ rows2 : List Row, statsOverdue today rows2
      = (rows2.filter (fun r =>
        match targetParse r.target_days with
        | some t => decide (0 < t) && decide (t < readDuration today r)
        | none => false)).length := by
    intro rows2
    rw [statsOverdue, foldl_count, List.filter_filter, Nat.zero_add]
    congr 1
    apply List.filter_congr
    intro r _
    cases ht : r.target_days with
    | null => simp [ht, sqlTargetNotNull, targetParse, statsLoopHit, targetTruthy]
    | intv t =>
      by_cases h0 : t = 0
      · simp [ht, h0, sqlTargetNotNull, targetParse, statsLoopHit, targetTruthy]
      · simp [ht, h0, sqlTargetNotNull, targetParse, statsLoopHit, targetTruthy]
    | textv s =>
      by_cases hs : s = ""
      · have hemp : parseIntOpt "" = none := rfl
        simp [ht, hs, sqlTargetNotNull, targetParse, statsLoopHit,
          targetTruthy, hemp]
      · simp [ht, hs, sqlTargetNotNull, targetParse, statsLoopHit, targetTruthy]
  refine ⟨hchar rows, ?_⟩
  intro r
  rw [hchar, hchar, List.filter_cons]
  have hNA : parseIntOpt "N/A" = none := rfl
  simp [targetParse, hNA]

end GbbCrm
